import Mathlib

/-!
Shallow embedding of the A2A bridge of `gemini-cli`:
`packages/core/src/a2a/a2a-client.ts` (the `A2AClientManager` registry),
`packages/core/src/a2a/tools.ts` (the per-agent tool registrar and the
`load_agent` / `list_agents` façade) and `packages/core/src/a2a/utils.ts`
(text extraction helpers).

JavaScript `Map` objects are modelled as insertion-ordered association
lists (`Map.set` replaces in place, keeping the entry's position), and
JavaScript `Set` objects as duplicate-free lists in insertion order.
Network calls are suspension points whose outcome is an explicit oracle
parameter: `Except String α` stands for a promise that either resolves
(`Except.ok`) or rejects with a thrown error message (`Except.error`).
-/

namespace A2A

/-- JavaScript `Map.prototype.get`: the value stored under `k`, if any. -/
def alGet {α : Type} (l : List (String × α)) (k : String) : Option α :=
  match l with
  | [] => none
  | (k', v) :: t => if k' = k then some v else alGet t k

/-- JavaScript `Map.prototype.set`: replaces the value in place when the key
is present (keeping the entry's position), otherwise appends a new entry. -/
def alSet {α : Type} (l : List (String × α)) (k : String) (v : α) : List (String × α) :=
  match l with
  | [] => [(k, v)]
  | (k', v') :: t => if k' = k then (k, v) :: t else (k', v') :: alSet t k v

/-- JavaScript `Set.prototype.add`: appends the element if absent. -/
def jsSetAdd (s : List String) (x : String) : List String :=
  if x ∈ s then s else s ++ [x]

/-- JavaScript `Set.prototype.delete`: removes the element. -/
def jsSetDelete (s : List String) (x : String) : List String :=
  s.filter (fun y => y ≠ x)

/-- JavaScript truthiness of an optional string: `undefined` and the empty
string are falsy. -/
def truthy (o : Option String) : Bool :=
  match o with
  | none => false
  | some s => s ≠ ""

/-- JavaScript `a || b` for an optional string `a` and default `b`:
yields `b` when `a` is `undefined` or empty. -/
def jsOr (o : Option String) (d : String) : String :=
  match o with
  | none => d
  | some s => if s = "" then d else s

/-- The character class of the JavaScript regular expression `\s`. -/
def isJsSpace (c : Char) : Bool :=
  c = ' ' || c = '\t' || c = '\n' || c = '\r' || c = '\x0b' || c = '\x0c' ||
  c = ' ' || c = ' ' || (' ' ≤ c && c ≤ ' ') ||
  c = ' ' || c = ' ' || c = ' ' || c = ' ' ||
  c = '　' || c = '﻿'

/-- The result of `name.replace(/\s/g, '')`: the name with all whitespace removed
(`sanitizedAgentName` in `tools.ts`). -/
def sanitizeName (s : String) : String :=
  String.mk (s.toList.filter (fun c => !isJsSpace c))

/-! ## Data model (`@a2a-js/sdk` types as used by the bridge) -/

/-- An agent card (descriptor): the fields the bridge reads. -/
structure AgentCard where
  name : String
  url : String
deriving DecidableEq, Repr

/-- The `StaticBearerTokenAuth` class from `a2a-client.ts`. -/
structure StaticBearerTokenAuth where
  token : String
deriving DecidableEq, Repr

/-- The headers of `StaticBearerTokenAuth.headers()`. -/
def StaticBearerTokenAuth.headers (a : StaticBearerTokenAuth) : List (String × String) :=
  [("Authorization", "Bearer " ++ a.token)]

/-- An `A2AClient` handle as constructed by `loadAgent`: the base URL, the
resolved agent-card path, and the optional authentication handler. -/
structure A2AClient where
  url : String
  agentCardPath : String
  authHandler : Option StaticBearerTokenAuth
deriving DecidableEq, Repr

/-- Modelled from the spec: the SDK client attaches the authentication
handler's headers to every request it makes for this peer ("a static token
attached as an `Authorization: Bearer <token>` header to every downstream
call for that peer"); without a handler, no extra headers are attached. -/
def A2AClient.requestHeaders (c : A2AClient) : List (String × String) :=
  match c.authHandler with
  | none => []
  | some h => h.headers

/-- A message part (`TextPart` / `DataPart` / `FilePart`); the data payload
is kept as its serialized text. -/
inductive Part where
  | text (text : String)
  | data (data : String)
  | file (name : Option String) (uri : Option String) (hasBytes : Bool)
deriving DecidableEq, Repr

/-- A protocol message as the bridge reads it: its parts and the optional
continuity token. -/
structure MessageObj where
  parts : List Part
  contextId : Option String
deriving DecidableEq, Repr

/-- A task's status: state and optional status message. -/
structure TaskStatus where
  state : String
  message : Option MessageObj
deriving DecidableEq, Repr

/-- A task object as the bridge reads it; `history` is the length of the
task's history array (`0` for absent or empty). -/
structure TaskObj where
  id : String
  contextId : Option String
  status : TaskStatus
  history : Nat
deriving DecidableEq, Repr

/-- The outbound message built by `sendMessage` (`MessageSendParams.message`):
role `"user"`, a fresh message id, a single text part, the locally generated
task id and the optional continuity token. -/
structure A2AMessage where
  role : String
  messageId : String
  text : String
  taskId : String
  contextId : Option String
deriving DecidableEq, Repr

/-- A downstream request: the headers attached by the client plus the body. -/
structure A2ARequest (β : Type) where
  headers : List (String × String)
  body : β
deriving DecidableEq, Repr

/-- A `SendMessageResponse`: either an error payload (`'error' in response`),
or a result that is a message or a task. -/
inductive SendMessageResponse where
  | protocolError (message : String)
  | message (m : MessageObj)
  | task (t : TaskObj)
deriving DecidableEq, Repr

/-- A `GetTaskResponse` / `CancelTaskResponse`: an error payload or a task. -/
inductive TaskResponse where
  | protocolError (message : String)
  | task (t : TaskObj)
deriving DecidableEq, Repr

/-- Modelled from the spec: `extractContextId` is imported from `./utils.js`
by `a2a-client.ts` but its definition is not among the provided sources.
Per the spec, a successful exchange may yield "a new context token" — an
opaque continuity token carried by the peer's response (a message or a task
object); an error response yields none. -/
def extractContextId (r : SendMessageResponse) : Option String :=
  match r with
  | .protocolError _ => none
  | .message m => m.contextId
  | .task t => t.contextId

/-! ## `utils.ts` -/

/-- A textual tool result (`utils.ts` `textResponse`: a `CallToolResult`
with a single text content part). -/
structure CallToolResult where
  text : String
deriving DecidableEq, Repr

/-- The `textResponse` helper from `utils.ts`. -/
def textResponse (message : String) : CallToolResult := ⟨message⟩

/-- The `extractMessageText` helper from `utils.ts`: prefers non-empty text parts,
then data parts, then file parts, else a placeholder. (`JSON.stringify` of
a data payload is its stored serialization; data and file parts are objects
and hence always truthy, so `.filter(Boolean)` keeps them all.) -/
def extractMessageText (message : Option MessageObj) : String :=
  match message with
  | none => ""
  | some m =>
    let textParts := (m.parts.filterMap (fun p =>
      match p with | .text t => some t | _ => none)).filter (fun t => t ≠ "")
    if !textParts.isEmpty then
      String.intercalate " " textParts
    else
      let dataParts := m.parts.filterMap (fun p =>
        match p with | .data d => some d | _ => none)
      if !dataParts.isEmpty then
        String.intercalate "\n" (dataParts.map (fun d => "Data: " ++ d))
      else
        let fileParts := m.parts.filterMap (fun p =>
          match p with | .file n u b => some (n, u, b) | _ => none)
        if !fileParts.isEmpty then
          String.intercalate "\n" (fileParts.map (fun f =>
            match f with
            | (some n, _, _) => "File: " ++ n
            | (none, some u, _) => "File: " ++ u
            | (none, none, true) => "File: [unnamed file with bytes]"
            | (none, none, false) => "[unknown file part]"))
        else
          "[unknown message part]"

/-- The `extractTaskText` helper from `utils.ts`. The history line reproduces the
source literally: the source uses single quotes there, so the interpolation
braces are emitted verbatim. -/
def extractTaskText (task : TaskObj) : String :=
  let base := "ID:      " ++ task.id ++ "\n" ++ "State:   " ++ task.status.state ++ "\n"
  let messageText := extractMessageText task.status.message
  let withMsg := if messageText ≠ "" then base ++ "Message: " ++ messageText ++ "\n" else base
  if task.history > 0 then
    withMsg ++ "\nHistory:\n \x7btask.history.length\x7d messages\n"
  else withMsg

/-! ## `A2AClientManager` (`a2a-client.ts`) -/

/-- The `AGENT_CARD_WELL_KNOWN_PATH` constant. -/
def AGENT_CARD_WELL_KNOWN_PATH : String := "/.well-known/agent-card.json"

/-- The manager's state: the three private maps of `A2AClientManager`. -/
structure A2AClientManager where
  registeredAgents : List (String × A2AClient)
  taskMap : List (String × List String)
  contextMap : List (String × String)
deriving DecidableEq, Repr

/-- The manager's initial state: all three maps empty. -/
def A2AClientManager.initial : A2AClientManager := ⟨[], [], []⟩

/-- The task set recorded for a peer (empty when the peer has no entry,
matching `this.taskMap.get(agentName)?.has(...)` where `undefined?.has`
short-circuits to a failed check). -/
def taskSetOf (st : A2AClientManager) (agentName : String) : List String :=
  (alGet st.taskMap agentName).getD []

/-- The client constructed by `loadAgent` before the descriptor fetch:
`new A2AClient(url, { agentCardPath: agent_card_path ||
AGENT_CARD_WELL_KNOWN_PATH, authHandler: token ? new
StaticBearerTokenAuth(token) : undefined })`. -/
def loadClient (url : String) (agent_card_path : Option String) (token : Option String) :
    A2AClient :=
  { url := url
    agentCardPath := jsOr agent_card_path AGENT_CARD_WELL_KNOWN_PATH
    authHandler :=
      match token with
      | none => none
      | some t => if t = "" then none else some ⟨t⟩ }

/-- Outcome of `A2AClientManager.loadAgent`. -/
inductive LoadOutcome where
  | fetchFailed (e : String)
  | alreadyLoaded (name : String)
  | loaded (card : AgentCard)
deriving DecidableEq, Repr

/-- The method `A2AClientManager.loadAgent`: builds the client, fetches the card
(`getAgentCard` is the network oracle, receiving the client whose headers it
uses), then — only after the fetch completes — checks the raw card name for
a duplicate and either throws or stores the connection keyed by the raw
card name. -/
def A2AClientManager.loadAgent (st : A2AClientManager) (url : String)
    (agent_card_path : Option String) (token : Option String)
    (getAgentCard : A2AClient → Except String AgentCard) :
    LoadOutcome × A2AClientManager :=
  let a2aClient := loadClient url agent_card_path token
  match getAgentCard a2aClient with
  | .error e => (.fetchFailed e, st)
  | .ok agentCard =>
    match alGet st.registeredAgents agentCard.name with
    | some _ => (.alreadyLoaded agentCard.name, st)
    | none =>
      (.loaded agentCard,
       { st with registeredAgents := alSet st.registeredAgents agentCard.name a2aClient })

/-- The method `A2AClientManager.listAgents`: re-queries `getAgentCard()` on every
stored client, in insertion order; `Promise.all` rejects the whole listing
when any single fetch rejects. -/
def A2AClientManager.listAgents (st : A2AClientManager)
    (getAgentCard : A2AClient → Except String AgentCard) :
    Except String (List AgentCard) :=
  (st.registeredAgents.map (fun p => p.2)).mapM getAgentCard

/-- Outcome of `A2AClientManager.sendMessage`: either the thrown
not-registered error, or an exchange that made the recorded request and got
the network outcome. -/
inductive SendOutcome where
  | notRegistered
  | exchanged (req : A2ARequest A2AMessage) (result : Except String SendMessageResponse)
deriving Repr

/-- The request an exchange made, if one was made. -/
def SendOutcome.request? (o : SendOutcome) : Option (A2ARequest A2AMessage) :=
  match o with
  | .notRegistered => none
  | .exchanged req _ => some req

/-- The method `A2AClientManager.sendMessage`: throws if the peer is unregistered;
otherwise adds the freshly generated task id to the peer's task set
*before* the network call, attaches the stored context id when truthy,
sends, and stores a truthy new context id extracted from a resolved
response. `taskId` and `messageId` stand for the two `uuidv4()` draws. -/
def A2AClientManager.sendMessage (st : A2AClientManager) (agentName message : String)
    (taskId messageId : String)
    (net : A2ARequest A2AMessage → Except String SendMessageResponse) :
    SendOutcome × A2AClientManager :=
  match alGet st.registeredAgents agentName with
  | none => (.notRegistered, st)
  | some a2aClient =>
    let st1 := { st with
      taskMap := alSet st.taskMap agentName (jsSetAdd (taskSetOf st agentName) taskId) }
    let contextId := alGet st.contextMap agentName
    let msg : A2AMessage :=
      { role := "user", messageId := messageId, text := message, taskId := taskId
        contextId := if truthy contextId then contextId else none }
    let req : A2ARequest A2AMessage := { headers := a2aClient.requestHeaders, body := msg }
    match net req with
    | .error e => (.exchanged req (.error e), st1)
    | .ok response =>
      match extractContextId response with
      | some c =>
        if c = "" then (.exchanged req (.ok response), st1)
        else (.exchanged req (.ok response),
              { st1 with contextMap := alSet st1.contextMap agentName c })
      | none => (.exchanged req (.ok response), st1)

/-- Outcome of `getTask` / `cancelTask`: a thrown existence error, or a
query that made the recorded request and got the network outcome. -/
inductive TaskOutcome where
  | notRegistered
  | taskNotFound
  | queried (req : A2ARequest String) (result : Except String TaskResponse)
deriving Repr

/-- Whether the operation reached the network call. -/
def TaskOutcome.isQueried (o : TaskOutcome) : Bool :=
  match o with
  | .queried _ _ => true
  | _ => false

/-- The method `A2AClientManager.getTask`: throws if the peer is unregistered; throws
if the task id is not in the peer's task set; otherwise queries the peer.
Mutates none of the maps. -/
def A2AClientManager.getTask (st : A2AClientManager) (agentName taskId : String)
    (net : A2ARequest String → Except String TaskResponse) :
    TaskOutcome × A2AClientManager :=
  match alGet st.registeredAgents agentName with
  | none => (.notRegistered, st)
  | some a2aClient =>
    if taskId ∈ taskSetOf st agentName then
      let req : A2ARequest String := { headers := a2aClient.requestHeaders, body := taskId }
      (.queried req (net req), st)
    else (.taskNotFound, st)

/-- The method `A2AClientManager.cancelTask`: the same existence checks as `getTask`;
deletes the task id from the peer's task set *before* the network call. -/
def A2AClientManager.cancelTask (st : A2AClientManager) (agentName taskId : String)
    (net : A2ARequest String → Except String TaskResponse) :
    TaskOutcome × A2AClientManager :=
  match alGet st.registeredAgents agentName with
  | none => (.notRegistered, st)
  | some a2aClient =>
    let agentTaskSet := taskSetOf st agentName
    if taskId ∈ agentTaskSet then
      let st1 := { st with taskMap := alSet st.taskMap agentName (jsSetDelete agentTaskSet taskId) }
      let req : A2ARequest String := { headers := a2aClient.requestHeaders, body := taskId }
      (.queried req (net req), st1)
    else (.taskNotFound, st)

/-! ## `A2AToolRegistry` and per-agent handlers (`tools.ts`) -/

/-- The manager operation a registered per-agent tool closes over, together
with the raw agent name captured by its closure. -/
inductive ToolHandler where
  | send (agentName : String)
  | get (agentName : String)
  | cancel (agentName : String)
deriving DecidableEq, Repr

/-- One entry of the MCP server's tool table: identifier, description, and
the handler installed for it. -/
structure RegisteredTool where
  name : String
  description : String
  handler : ToolHandler
deriving DecidableEq, Repr

/-- The method `A2AToolRegistry.registerToolsForAgent`: computes the sanitized agent
name and registers the three per-agent tools, `_`-joined, whose handlers
close over the raw `agentName`. -/
def registerToolsForAgent (tools : List RegisteredTool) (agentCard : AgentCard) :
    List RegisteredTool :=
  let agentName := agentCard.name
  let sanitizedAgentName := sanitizeName agentName
  tools ++
    [{ name := sanitizedAgentName ++ "_sendMessage"
       description := "Sends a message to the " ++ agentName ++ " agent."
       handler := .send agentName },
     { name := sanitizedAgentName ++ "_getTask"
       description := "Retrieves a task from the " ++ agentName ++ " agent."
       handler := .get agentName },
     { name := sanitizedAgentName ++ "_cancelTask"
       description := "Cancels a task on the " ++ agentName ++ " agent."
       handler := .cancel agentName }]

/-- The thrown message for an unregistered peer (`a2a-client.ts`). -/
def notRegisteredMsg (agentName : String) : String :=
  "Agent with name " ++ agentName ++ " is not registered. Please run load_agent first."

/-- The thrown message for a task id outside the peer's set (`a2a-client.ts`). -/
def taskNotFoundMsg (agentName taskId : String) : String :=
  "Agent with name " ++ agentName ++ " has no task " ++ taskId ++ " associated with it."

/-- The `<name>_sendMessage` closure of `registerToolsForAgent`: calls the
manager inside `try`, converts a protocol-level error payload, a message
result, a task result, and every caught exception into a textual result. -/
def agentSendMessage (agentName : String) (st : A2AClientManager)
    (message taskId messageId : String)
    (net : A2ARequest A2AMessage → Except String SendMessageResponse) :
    CallToolResult × A2AClientManager :=
  match A2AClientManager.sendMessage st agentName message taskId messageId net with
  | (.notRegistered, st1) =>
    (textResponse ("Failed to send message to " ++ agentName ++ ": " ++
      notRegisteredMsg agentName), st1)
  | (.exchanged _ (.error e), st1) =>
    (textResponse ("Failed to send message to " ++ agentName ++ ": " ++ e), st1)
  | (.exchanged _ (.ok (.protocolError m)), st1) =>
    (textResponse ("Error from agent " ++ agentName ++ ": " ++ m), st1)
  | (.exchanged _ (.ok (.message m)), st1) =>
    (textResponse (extractMessageText (some m)), st1)
  | (.exchanged _ (.ok (.task t)), st1) =>
    (textResponse (extractTaskText t), st1)

/-- The `<name>_getTask` closure of `registerToolsForAgent`. -/
def agentGetTask (agentName : String) (st : A2AClientManager) (taskId : String)
    (net : A2ARequest String → Except String TaskResponse) :
    CallToolResult × A2AClientManager :=
  match A2AClientManager.getTask st agentName taskId net with
  | (.notRegistered, st1) =>
    (textResponse ("Failed to get task from agent " ++ agentName ++ ": " ++
      notRegisteredMsg agentName), st1)
  | (.taskNotFound, st1) =>
    (textResponse ("Failed to get task from agent " ++ agentName ++ ": " ++
      taskNotFoundMsg agentName taskId), st1)
  | (.queried _ (.error e), st1) =>
    (textResponse ("Failed to get task from agent " ++ agentName ++ ": " ++ e), st1)
  | (.queried _ (.ok (.protocolError m)), st1) =>
    (textResponse ("Error from agent " ++ agentName ++ " when getting task " ++ m), st1)
  | (.queried _ (.ok (.task t)), st1) =>
    (textResponse (extractTaskText t), st1)

/-- The `<name>_cancelTask` closure of `registerToolsForAgent`. -/
def agentCancelTask (agentName : String) (st : A2AClientManager) (taskId : String)
    (net : A2ARequest String → Except String TaskResponse) :
    CallToolResult × A2AClientManager :=
  match A2AClientManager.cancelTask st agentName taskId net with
  | (.notRegistered, st1) =>
    (textResponse ("Failed to Cancel Task on Agent " ++ agentName ++ ": " ++
      notRegisteredMsg agentName), st1)
  | (.taskNotFound, st1) =>
    (textResponse ("Failed to Cancel Task on Agent " ++ agentName ++ ": " ++
      taskNotFoundMsg agentName taskId), st1)
  | (.queried _ (.error e), st1) =>
    (textResponse ("Failed to Cancel Task on Agent " ++ agentName ++ ": " ++ e), st1)
  | (.queried _ (.ok (.protocolError m)), st1) =>
    (textResponse ("Error from agent " ++ agentName ++ " when canceling task: " ++ m), st1)
  | (.queried _ (.ok (.task t)), st1) =>
    (textResponse (extractTaskText t), st1)

/-! ## `A2AToolFunctions` façade (`tools.ts`) -/

/-- The bridge's combined state: the manager plus the MCP server's tool
table the registrar installs into. -/
structure BridgeState where
  manager : A2AClientManager
  tools : List RegisteredTool
deriving Repr

/-- The initial bridge state: fresh manager, no per-agent tools installed. -/
def BridgeState.initial : BridgeState := ⟨A2AClientManager.initial, []⟩

namespace A2AToolFunctions

/-- The operation `A2AToolFunctions.load_agent` from `tools.ts`: its input schema carries
only `url` and `agent_card_path` — no token is forwarded to the manager.
On success it delegates registration and reports the three `_`-joined tool
names; every failure is caught and converted to a textual result
(`Failed to load agent: ${error}` stringifies the thrown `Error`). -/
def load_agent (bs : BridgeState) (url : String) (agent_card_path : Option String)
    (getAgentCard : A2AClient → Except String AgentCard) :
    CallToolResult × BridgeState :=
  match A2AClientManager.loadAgent bs.manager url agent_card_path none getAgentCard with
  | (.loaded agentCard, m1) =>
    let tools1 := registerToolsForAgent bs.tools agentCard
    let sanitizedAgentName := sanitizeName agentCard.name
    (textResponse ("Successfully loaded agent: " ++ agentCard.name ++
      ". New tools registered: " ++ sanitizedAgentName ++ "_sendMessage, " ++
      sanitizedAgentName ++ "_getTask, " ++ sanitizedAgentName ++ "_cancelTask."),
     ⟨m1, tools1⟩)
  | (.alreadyLoaded name, m1) =>
    (textResponse ("Failed to load agent: Error: Agent with name " ++ name ++
      " is already loaded."), ⟨m1, bs.tools⟩)
  | (.fetchFailed e, m1) =>
    (textResponse ("Failed to load agent: " ++ e), ⟨m1, bs.tools⟩)

/-- The operation `A2AToolFunctions.list_agents` from `tools.ts`: awaits the manager's
listing with no `try`/`catch`, so a rejected descriptor re-fetch propagates
past the operation boundary (the `Except.error` case). -/
def list_agents (bs : BridgeState)
    (getAgentCard : A2AClient → Except String AgentCard) :
    Except String CallToolResult :=
  match A2AClientManager.listAgents bs.manager getAgentCard with
  | .error e => .error e
  | .ok agents =>
    if agents.isEmpty then .ok (textResponse "No agents are currently loaded.")
    else .ok (textResponse (String.intercalate "\n"
      (agents.map (fun agent => "- " ++ agent.name ++ " (" ++ agent.url ++ ")"))))

end A2AToolFunctions

namespace A2AToolFunctionsV2

/-- The `A2AToolFunctions.load_agent` variant among the provided sources
whose input schema carries an optional `token` ("static Bearer token for
authentication") and forwards it to the manager; this is the variant the
entry point `a2a-mcp-server.ts` exercises when auto-loading configured
agents with an `accessToken`. -/
def load_agent (bs : BridgeState) (url : String) (agent_card_path : Option String)
    (token : Option String)
    (getAgentCard : A2AClient → Except String AgentCard) :
    CallToolResult × BridgeState :=
  match A2AClientManager.loadAgent bs.manager url agent_card_path token getAgentCard with
  | (.loaded agentCard, m1) =>
    let tools1 := registerToolsForAgent bs.tools agentCard
    let sanitizedAgentName := sanitizeName agentCard.name
    (textResponse ("Successfully loaded agent: " ++ agentCard.name ++
      ". New tools registered: " ++ sanitizedAgentName ++ "_sendMessage, " ++
      sanitizedAgentName ++ "_getTask, " ++ sanitizedAgentName ++ "_cancelTask."),
     ⟨m1, tools1⟩)
  | (.alreadyLoaded name, m1) =>
    (textResponse ("Failed to load agent: Error: Agent with name " ++ name ++
      " is already loaded."), ⟨m1, bs.tools⟩)
  | (.fetchFailed e, m1) =>
    (textResponse ("Failed to load agent: " ++ e), ⟨m1, bs.tools⟩)

end A2AToolFunctionsV2

/-- A sequence of `load_agent` calls, each given the descriptor its fetch
resolves to: scenario combinator for the listing property. -/
def load_agent_seq (bs : BridgeState) (loads : List (String × AgentCard)) : BridgeState :=
  match loads with
  | [] => bs
  | (url, card) :: rest =>
    load_agent_seq (A2AToolFunctions.load_agent bs url none (fun _ => .ok card)).2 rest

/-! ## Reachability: the registry operations as a step relation. -/

/-- One registry operation. In the `send` step, `hfresh` records that the
`uuidv4()` draw for the new task id is globally fresh — not currently a
member of any peer's task set. -/
inductive StepTo : A2AClientManager → A2AClientManager → Prop where
  | load (st : A2AClientManager) (url : String) (path tok : Option String)
      (fetch : A2AClient → Except String AgentCard) :
      StepTo st (A2AClientManager.loadAgent st url path tok fetch).2
  | send (st : A2AClientManager) (a text taskId msgId : String)
      (net : A2ARequest A2AMessage → Except String SendMessageResponse)
      (hfresh : ∀ p, taskId ∉ taskSetOf st p) :
      StepTo st (A2AClientManager.sendMessage st a text taskId msgId net).2
  | get (st : A2AClientManager) (a taskId : String)
      (net : A2ARequest String → Except String TaskResponse) :
      StepTo st (A2AClientManager.getTask st a taskId net).2
  | cancel (st : A2AClientManager) (a taskId : String)
      (net : A2ARequest String → Except String TaskResponse) :
      StepTo st (A2AClientManager.cancelTask st a taskId net).2

/-- A manager state the process can actually be in: reachable from the
initial state by registry operations. -/
def Reachable (st : A2AClientManager) : Prop :=
  Relation.ReflTransGen StepTo A2AClientManager.initial st

/-- The outbound request `sendMessage` builds for a registered peer: the
stored client's headers and the single-turn text message carrying the fresh
task id and the truthy stored context. -/
def sendReq (st : A2AClientManager) (a text tid mid : String) (c : A2AClient) :
    A2ARequest A2AMessage :=
  { headers := c.requestHeaders
    body := { role := "user", messageId := mid, text := text, taskId := tid
              contextId :=
                if truthy (alGet st.contextMap a) then alGet st.contextMap a else none } }

/-- The request `getTask` / `cancelTask` made, if the checks passed. -/
def TaskOutcome.request? (o : TaskOutcome) : Option (A2ARequest String) :=
  match o with
  | .queried req _ => some req
  | _ => none

/-- Task-ownership isolation: a task id is a member of at most one peer's
task set. -/
def uniqueOwnership (st : A2AClientManager) : Prop :=
  ∀ p q t, t ∈ taskSetOf st p → t ∈ taskSetOf st q → p = q

/-! ## Map and set lemmas -/

theorem alGet_alSet_self {α : Type} (l : List (String × α)) (k : String) (v : α) :
    alGet (alSet l k v) k = some v := by
  induction l with
  | nil => simp [alGet, alSet]
  | cons hd tl ih =>
    rcases hd with ⟨k', v'⟩
    by_cases h : k' = k
    · simp [alGet, alSet, h]
    · simp [alGet, alSet, h, ih]

theorem alGet_alSet_ne {α : Type} (l : List (String × α)) (k k' : String) (v : α)
    (h : k' ≠ k) : alGet (alSet l k v) k' = alGet l k' := by
  have hk : ¬(k = k') := fun hh => h hh.symm
  induction l with
  | nil => simp [alGet, alSet, hk]
  | cons hd tl ih =>
    rcases hd with ⟨k0, v0⟩
    by_cases h0 : k0 = k
    · subst h0
      simp [alGet, alSet, hk]
    · simp [alGet, alSet, h0, ih]

theorem mem_jsSetAdd (s : List String) (x t : String) :
    t ∈ jsSetAdd s x ↔ t ∈ s ∨ t = x := by
  by_cases h : x ∈ s
  · simp only [jsSetAdd, if_pos h]
    constructor
    · exact fun ht => Or.inl ht
    · rintro (ht | rfl) <;> [exact ht; exact h]
  · simp [jsSetAdd, if_neg h]

theorem mem_jsSetDelete (s : List String) (x t : String) :
    t ∈ jsSetDelete s x ↔ t ∈ s ∧ t ≠ x := by
  simp [jsSetDelete]

/-! ## State-shape lemmas for the registry operations -/

theorem loadAgent_taskMap (st : A2AClientManager) (url : String) (path tok : Option String)
    (fetch : A2AClient → Except String AgentCard) :
    (A2AClientManager.loadAgent st url path tok fetch).2.taskMap = st.taskMap := by
  unfold A2AClientManager.loadAgent
  dsimp only
  split <;> try rfl
  split <;> rfl

theorem loadAgent_contextMap (st : A2AClientManager) (url : String) (path tok : Option String)
    (fetch : A2AClient → Except String AgentCard) :
    (A2AClientManager.loadAgent st url path tok fetch).2.contextMap = st.contextMap := by
  unfold A2AClientManager.loadAgent
  dsimp only
  split <;> try rfl
  split <;> rfl

theorem getTask_state (st : A2AClientManager) (a taskId : String)
    (net : A2ARequest String → Except String TaskResponse) :
    (A2AClientManager.getTask st a taskId net).2 = st := by
  unfold A2AClientManager.getTask
  dsimp only
  split <;> try rfl
  split <;> rfl

theorem sendMessage_registeredAgents (st : A2AClientManager) (a text tid mid : String)
    (net : A2ARequest A2AMessage → Except String SendMessageResponse) :
    (A2AClientManager.sendMessage st a text tid mid net).2.registeredAgents =
      st.registeredAgents := by
  unfold A2AClientManager.sendMessage
  dsimp only
  split
  · rfl
  · split
    · rfl
    · split
      · split <;> rfl
      · rfl

theorem sendMessage_taskMap_of_registered (st : A2AClientManager) (a text tid mid : String)
    (net : A2ARequest A2AMessage → Except String SendMessageResponse)
    (c : A2AClient) (h : alGet st.registeredAgents a = some c) :
    (A2AClientManager.sendMessage st a text tid mid net).2.taskMap =
      alSet st.taskMap a (jsSetAdd (taskSetOf st a) tid) := by
  unfold A2AClientManager.sendMessage
  dsimp only
  split
  · rename_i heq; rw [heq] at h; exact absurd h (by simp)
  · split
    · rfl
    · split
      · split <;> rfl
      · rfl

theorem sendMessage_state_of_unregistered (st : A2AClientManager) (a text tid mid : String)
    (net : A2ARequest A2AMessage → Except String SendMessageResponse)
    (h : alGet st.registeredAgents a = none) :
    A2AClientManager.sendMessage st a text tid mid net = (.notRegistered, st) := by
  unfold A2AClientManager.sendMessage
  rw [h]

theorem sendMessage_contextMap_cases (st : A2AClientManager) (a text tid mid : String)
    (net : A2ARequest A2AMessage → Except String SendMessageResponse) :
    (A2AClientManager.sendMessage st a text tid mid net).2.contextMap = st.contextMap ∨
    ∃ c, c ≠ "" ∧
      (A2AClientManager.sendMessage st a text tid mid net).2.contextMap =
        alSet st.contextMap a c := by
  unfold A2AClientManager.sendMessage
  dsimp only
  split
  · exact Or.inl rfl
  · split
    · exact Or.inl rfl
    · split
      · split
        · exact Or.inl rfl
        · rename_i c _ hc
          exact Or.inr ⟨c, hc, rfl⟩
      · exact Or.inl rfl

theorem cancelTask_registeredAgents (st : A2AClientManager) (a taskId : String)
    (net : A2ARequest String → Except String TaskResponse) :
    (A2AClientManager.cancelTask st a taskId net).2.registeredAgents =
      st.registeredAgents := by
  unfold A2AClientManager.cancelTask
  dsimp only
  split <;> try rfl
  split <;> rfl

theorem cancelTask_contextMap (st : A2AClientManager) (a taskId : String)
    (net : A2ARequest String → Except String TaskResponse) :
    (A2AClientManager.cancelTask st a taskId net).2.contextMap = st.contextMap := by
  unfold A2AClientManager.cancelTask
  dsimp only
  split <;> try rfl
  split <;> rfl

theorem cancelTask_taskMap_cases (st : A2AClientManager) (a taskId : String)
    (net : A2ARequest String → Except String TaskResponse) :
    (A2AClientManager.cancelTask st a taskId net).2.taskMap = st.taskMap ∨
    (A2AClientManager.cancelTask st a taskId net).2.taskMap =
      alSet st.taskMap a (jsSetDelete (taskSetOf st a) taskId) := by
  unfold A2AClientManager.cancelTask
  dsimp only
  split
  · exact Or.inl rfl
  · split
    · exact Or.inr rfl
    · exact Or.inl rfl

theorem sendMessage_taskMap_cases (st : A2AClientManager) (a text tid mid : String)
    (net : A2ARequest A2AMessage → Except String SendMessageResponse) :
    (A2AClientManager.sendMessage st a text tid mid net).2.taskMap = st.taskMap ∨
    (A2AClientManager.sendMessage st a text tid mid net).2.taskMap =
      alSet st.taskMap a (jsSetAdd (taskSetOf st a) tid) := by
  cases h : alGet st.registeredAgents a with
  | none => rw [sendMessage_state_of_unregistered st a text tid mid net h]; exact Or.inl rfl
  | some c => exact Or.inr (sendMessage_taskMap_of_registered st a text tid mid net c h)

/-! ## Branch equations for the existence checks -/

theorem getTask_notRegistered (st : A2AClientManager) (a taskId : String)
    (net : A2ARequest String → Except String TaskResponse)
    (h : alGet st.registeredAgents a = none) :
    A2AClientManager.getTask st a taskId net = (.notRegistered, st) := by
  unfold A2AClientManager.getTask
  rw [h]

theorem getTask_taskNotFound (st : A2AClientManager) (a taskId : String)
    (net : A2ARequest String → Except String TaskResponse) (c : A2AClient)
    (hc : alGet st.registeredAgents a = some c) (ht : taskId ∉ taskSetOf st a) :
    A2AClientManager.getTask st a taskId net = (.taskNotFound, st) := by
  unfold A2AClientManager.getTask
  rw [hc]
  dsimp only
  rw [if_neg ht]

theorem getTask_success (st : A2AClientManager) (a taskId : String)
    (net : A2ARequest String → Except String TaskResponse) (c : A2AClient)
    (hc : alGet st.registeredAgents a = some c) (ht : taskId ∈ taskSetOf st a) :
    A2AClientManager.getTask st a taskId net =
      (.queried ⟨c.requestHeaders, taskId⟩ (net ⟨c.requestHeaders, taskId⟩), st) := by
  unfold A2AClientManager.getTask
  rw [hc]
  dsimp only
  rw [if_pos ht]

theorem cancelTask_notRegistered (st : A2AClientManager) (a taskId : String)
    (net : A2ARequest String → Except String TaskResponse)
    (h : alGet st.registeredAgents a = none) :
    A2AClientManager.cancelTask st a taskId net = (.notRegistered, st) := by
  unfold A2AClientManager.cancelTask
  rw [h]

theorem cancelTask_taskNotFound (st : A2AClientManager) (a taskId : String)
    (net : A2ARequest String → Except String TaskResponse) (c : A2AClient)
    (hc : alGet st.registeredAgents a = some c) (ht : taskId ∉ taskSetOf st a) :
    A2AClientManager.cancelTask st a taskId net = (.taskNotFound, st) := by
  unfold A2AClientManager.cancelTask
  rw [hc]
  dsimp only
  rw [if_neg ht]

theorem cancelTask_success (st : A2AClientManager) (a taskId : String)
    (net : A2ARequest String → Except String TaskResponse) (c : A2AClient)
    (hc : alGet st.registeredAgents a = some c) (ht : taskId ∈ taskSetOf st a) :
    A2AClientManager.cancelTask st a taskId net =
      (.queried ⟨c.requestHeaders, taskId⟩ (net ⟨c.requestHeaders, taskId⟩),
       { st with taskMap := alSet st.taskMap a (jsSetDelete (taskSetOf st a) taskId) }) := by
  unfold A2AClientManager.cancelTask
  rw [hc]
  dsimp only
  rw [if_pos ht]

/-- Evaluation of `taskSetOf` after an `alSet` on the same key. -/
theorem taskSetOf_alSet_self (st : A2AClientManager) (a : String) (s : List String) :
    taskSetOf { st with taskMap := alSet st.taskMap a s } a = s := by
  simp [taskSetOf, alGet_alSet_self]

/-- Evaluation of `taskSetOf` after an `alSet` on a different key. -/
theorem taskSetOf_alSet_ne (st : A2AClientManager) (a q : String) (s : List String)
    (h : q ≠ a) :
    taskSetOf { st with taskMap := alSet st.taskMap a s } q = taskSetOf st q := by
  simp [taskSetOf, alGet_alSet_ne _ _ _ _ h]

theorem sendMessage_fst_of_registered (st : A2AClientManager) (a text tid mid : String)
    (net : A2ARequest A2AMessage → Except String SendMessageResponse) (c : A2AClient)
    (h : alGet st.registeredAgents a = some c) :
    (A2AClientManager.sendMessage st a text tid mid net).1 =
      .exchanged (sendReq st a text tid mid c) (net (sendReq st a text tid mid c)) := by
  unfold A2AClientManager.sendMessage sendReq
  rw [h]
  dsimp only
  split
  · rename_i e heq; rw [heq]
  · rename_i r heq
    split
    · split <;> rw [heq]
    · rw [heq]

theorem sendMessage_contextMap_of_some (st : A2AClientManager) (a text tid mid : String)
    (net : A2ARequest A2AMessage → Except String SendMessageResponse) (c : A2AClient)
    (resp : SendMessageResponse) (ctx : String)
    (h : alGet st.registeredAgents a = some c)
    (hnet : net (sendReq st a text tid mid c) = .ok resp)
    (hctx : extractContextId resp = some ctx) (hctx0 : ctx ≠ "") :
    (A2AClientManager.sendMessage st a text tid mid net).2.contextMap =
      alSet st.contextMap a ctx := by
  unfold sendReq at hnet
  unfold A2AClientManager.sendMessage
  rw [h]
  dsimp only
  rw [hnet]
  dsimp only
  rw [hctx]
  dsimp only
  rw [if_neg hctx0]

theorem sendMessage_contextMap_of_none (st : A2AClientManager) (a text tid mid : String)
    (net : A2ARequest A2AMessage → Except String SendMessageResponse) (c : A2AClient)
    (resp : SendMessageResponse)
    (h : alGet st.registeredAgents a = some c)
    (hnet : net (sendReq st a text tid mid c) = .ok resp)
    (hctx : extractContextId resp = none) :
    (A2AClientManager.sendMessage st a text tid mid net).2.contextMap = st.contextMap := by
  unfold sendReq at hnet
  unfold A2AClientManager.sendMessage
  rw [h]
  dsimp only
  rw [hnet]
  dsimp only
  rw [hctx]

/-! ## Claim theorems -/

/-- C4. Cancel semantics: `cancelTask(peer, T)` performs the same existence
checks as `getTask` (`NotRegistered` for an unknown peer, `TaskNotFound`
when `T` is not in the peer's task set), and on a successful cancellation
removes `T` from the peer's task set before returning, so that any
subsequent `getTask(peer, T)` or duplicate `cancelTask(peer, T)` fails with
`TaskNotFound`. -/
theorem claim_C4_cancel_semantics (st : A2AClientManager) (P T : String)
    (net netg net2 net3 : A2ARequest String → Except String TaskResponse) :
    (alGet st.registeredAgents P = none →
      (A2AClientManager.cancelTask st P T net).1 = .notRegistered ∧
      (A2AClientManager.getTask st P T netg).1 = .notRegistered) ∧
    (∀ c, alGet st.registeredAgents P = some c → T ∉ taskSetOf st P →
      (A2AClientManager.cancelTask st P T net).1 = .taskNotFound ∧
      (A2AClientManager.getTask st P T netg).1 = .taskNotFound) ∧
    (∀ c, alGet st.registeredAgents P = some c → T ∈ taskSetOf st P →
      (A2AClientManager.cancelTask st P T net).1.isQueried = true ∧
      T ∉ taskSetOf (A2AClientManager.cancelTask st P T net).2 P ∧
      (A2AClientManager.getTask (A2AClientManager.cancelTask st P T net).2 P T net2).1 =
        .taskNotFound ∧
      (A2AClientManager.cancelTask (A2AClientManager.cancelTask st P T net).2 P T net3).1 =
        .taskNotFound) := by
  refine ⟨?_, ?_, ?_⟩
  · intro h
    rw [cancelTask_notRegistered st P T net h, getTask_notRegistered st P T netg h]
    exact ⟨rfl, rfl⟩
  · intro c hc ht
    rw [cancelTask_taskNotFound st P T net c hc ht, getTask_taskNotFound st P T netg c hc ht]
    exact ⟨rfl, rfl⟩
  · intro c hc ht
    rw [cancelTask_success st P T net c hc ht]
    have hmem : T ∉ taskSetOf
        { st with taskMap := alSet st.taskMap P (jsSetDelete (taskSetOf st P) T) } P := by
      rw [taskSetOf_alSet_self]
      simp [mem_jsSetDelete]
    have hreg : alGet ({ st with
        taskMap := alSet st.taskMap P (jsSetDelete (taskSetOf st P) T) } :
        A2AClientManager).registeredAgents P = some c := hc
    refine ⟨rfl, hmem, ?_, ?_⟩
    · rw [getTask_taskNotFound _ P T net2 c hreg hmem]
    · rw [cancelTask_taskNotFound _ P T net3 c hreg hmem]

/-- Witness for C4 at a concrete state: peer `"A"` with open task `"T1"`. -/
theorem claim_C4_cancel_semantics_witness :
    ("T1" ∈ taskSetOf ⟨[("A", ⟨"u", "/p", none⟩)], [("A", ["T1"])], []⟩ "A") ∧
    ((A2AClientManager.cancelTask ⟨[("A", ⟨"u", "/p", none⟩)], [("A", ["T1"])], []⟩
        "A" "T1" (fun _ => .error "net")).1.isQueried = true ∧
     "T1" ∉ taskSetOf (A2AClientManager.cancelTask
        ⟨[("A", ⟨"u", "/p", none⟩)], [("A", ["T1"])], []⟩
        "A" "T1" (fun _ => .error "net")).2 "A" ∧
     (A2AClientManager.getTask (A2AClientManager.cancelTask
        ⟨[("A", ⟨"u", "/p", none⟩)], [("A", ["T1"])], []⟩
        "A" "T1" (fun _ => .error "net")).2 "A" "T1" (fun _ => .error "net")).1 =
       .taskNotFound ∧
     (A2AClientManager.cancelTask (A2AClientManager.cancelTask
        ⟨[("A", ⟨"u", "/p", none⟩)], [("A", ["T1"])], []⟩
        "A" "T1" (fun _ => .error "net")).2 "A" "T1" (fun _ => .error "net")).1 =
       .taskNotFound) :=
  ⟨by decide,
   (claim_C4_cancel_semantics ⟨[("A", ⟨"u", "/p", none⟩)], [("A", ["T1"])], []⟩ "A" "T1"
      (fun _ => .error "net") (fun _ => .error "net") (fun _ => .error "net")
      (fun _ => .error "net")).2.2 ⟨"u", "/p", none⟩ rfl (by decide)⟩

/-- C9. Implicit: `sendMessage` adds the freshly generated task id to the
registered peer's task set before the network call, so even when the send
fails (the network layer throws, here: for every oracle outcome), the task
id remains in the set and is afterwards a valid target for `getTask` and
`cancelTask` on that peer (both pass the membership check and reach the
network). -/
theorem claim_C9_task_survives_failed_send (st : A2AClientManager)
    (A text tid mid : String) (cA : A2AClient)
    (net : A2ARequest A2AMessage → Except String SendMessageResponse)
    (netg netc : A2ARequest String → Except String TaskResponse)
    (hA : alGet st.registeredAgents A = some cA) :
    tid ∈ taskSetOf (A2AClientManager.sendMessage st A text tid mid net).2 A ∧
    (∀ e, (∀ r, net r = .error e) →
      (A2AClientManager.sendMessage st A text tid mid net).1 =
        .exchanged (sendReq st A text tid mid cA) (.error e)) ∧
    (A2AClientManager.getTask (A2AClientManager.sendMessage st A text tid mid net).2
      A tid netg).1.isQueried = true ∧
    (A2AClientManager.cancelTask (A2AClientManager.sendMessage st A text tid mid net).2
      A tid netc).1.isQueried = true := by
  have htm := sendMessage_taskMap_of_registered st A text tid mid net cA hA
  have hmem : tid ∈ taskSetOf (A2AClientManager.sendMessage st A text tid mid net).2 A := by
    have : taskSetOf (A2AClientManager.sendMessage st A text tid mid net).2 A =
        jsSetAdd (taskSetOf st A) tid := by
      unfold taskSetOf
      rw [htm, alGet_alSet_self]
      rfl
    rw [this, mem_jsSetAdd]
    exact Or.inr rfl
  have hreg : alGet (A2AClientManager.sendMessage st A text tid mid net).2.registeredAgents
      A = some cA := by
    rw [sendMessage_registeredAgents]
    exact hA
  refine ⟨hmem, ?_, ?_, ?_⟩
  · intro e he
    rw [sendMessage_fst_of_registered st A text tid mid net cA hA, he]
  · rw [getTask_success _ A tid netg cA hreg hmem]
    rfl
  · rw [cancelTask_success _ A tid netc cA hreg hmem]
    rfl

/-- Witness for C9: peer `"A"` registered with empty task set, network
rejecting every request. -/
theorem claim_C9_task_survives_failed_send_witness :
    "T1" ∈ taskSetOf (A2AClientManager.sendMessage
      ⟨[("A", ⟨"u", "/p", none⟩)], [], []⟩ "A" "hi" "T1" "M1"
      (fun _ => .error "down")).2 "A" ∧
    (A2AClientManager.getTask (A2AClientManager.sendMessage
      ⟨[("A", ⟨"u", "/p", none⟩)], [], []⟩ "A" "hi" "T1" "M1"
      (fun _ => .error "down")).2 "A" "T1" (fun _ => .error "down")).1.isQueried = true :=
  ⟨(claim_C9_task_survives_failed_send ⟨[("A", ⟨"u", "/p", none⟩)], [], []⟩ "A" "hi" "T1"
      "M1" ⟨"u", "/p", none⟩ (fun _ => .error "down") (fun _ => .error "down")
      (fun _ => .error "down") rfl).1,
   (claim_C9_task_survives_failed_send ⟨[("A", ⟨"u", "/p", none⟩)], [], []⟩ "A" "hi" "T1"
      "M1" ⟨"u", "/p", none⟩ (fun _ => .error "down") (fun _ => .error "down")
      (fun _ => .error "down") rfl).2.2.1⟩

/-- C10. Implicit per-peer frame: `sendMessage`, `getTask` and `cancelTask`
addressed at peer `P` leave the connection entry, task set and
conversational context of every other peer `Q ≠ P` unchanged, whether they
succeed or fail; `getTask` leaves the whole state unchanged even for `P`. -/
theorem claim_C10_per_peer_frame (st : A2AClientManager) (P Q text tid mid taskId : String)
    (nets : A2ARequest A2AMessage → Except String SendMessageResponse)
    (netg netc : A2ARequest String → Except String TaskResponse)
    (hQP : Q ≠ P) :
    (alGet (A2AClientManager.sendMessage st P text tid mid nets).2.registeredAgents Q =
       alGet st.registeredAgents Q ∧
     taskSetOf (A2AClientManager.sendMessage st P text tid mid nets).2 Q = taskSetOf st Q ∧
     alGet (A2AClientManager.sendMessage st P text tid mid nets).2.contextMap Q =
       alGet st.contextMap Q) ∧
    (alGet (A2AClientManager.cancelTask st P taskId netc).2.registeredAgents Q =
       alGet st.registeredAgents Q ∧
     taskSetOf (A2AClientManager.cancelTask st P taskId netc).2 Q = taskSetOf st Q ∧
     alGet (A2AClientManager.cancelTask st P taskId netc).2.contextMap Q =
       alGet st.contextMap Q) ∧
    (A2AClientManager.getTask st P taskId netg).2 = st := by
  refine ⟨⟨?_, ?_, ?_⟩, ⟨?_, ?_, ?_⟩, getTask_state st P taskId netg⟩
  · rw [sendMessage_registeredAgents]
  · rcases sendMessage_taskMap_cases st P text tid mid nets with h | h <;>
      unfold taskSetOf <;> rw [h]
    rw [alGet_alSet_ne _ _ _ _ hQP]
  · rcases sendMessage_contextMap_cases st P text tid mid nets with h | ⟨c, _, h⟩ <;> rw [h]
    rw [alGet_alSet_ne _ _ _ _ hQP]
  · rw [cancelTask_registeredAgents]
  · rcases cancelTask_taskMap_cases st P taskId netc with h | h <;>
      unfold taskSetOf <;> rw [h]
    rw [alGet_alSet_ne _ _ _ _ hQP]
  · rw [cancelTask_contextMap]

theorem loadAgent_eq_loaded (st : A2AClientManager) (url : String) (path tok : Option String)
    (fetch : A2AClient → Except String AgentCard) (card : AgentCard)
    (hfetch : fetch (loadClient url path tok) = .ok card)
    (hfresh : alGet st.registeredAgents card.name = none) :
    A2AClientManager.loadAgent st url path tok fetch =
      (.loaded card,
       { st with registeredAgents :=
                   alSet st.registeredAgents card.name (loadClient url path tok) }) := by
  unfold A2AClientManager.loadAgent
  dsimp only
  rw [hfetch]
  dsimp only
  rw [hfresh]

theorem loadAgent_eq_dup (st : A2AClientManager) (url : String) (path tok : Option String)
    (fetch : A2AClient → Except String AgentCard) (card : AgentCard) (c0 : A2AClient)
    (hfetch : fetch (loadClient url path tok) = .ok card)
    (hdup : alGet st.registeredAgents card.name = some c0) :
    A2AClientManager.loadAgent st url path tok fetch = (.alreadyLoaded card.name, st) := by
  unfold A2AClientManager.loadAgent
  dsimp only
  rw [hfetch]
  dsimp only
  rw [hdup]

theorem loadAgent_eq_fetchFailed (st : A2AClientManager) (url : String)
    (path tok : Option String) (fetch : A2AClient → Except String AgentCard) (e : String)
    (hfetch : fetch (loadClient url path tok) = .error e) :
    A2AClientManager.loadAgent st url path tok fetch = (.fetchFailed e, st) := by
  unfold A2AClientManager.loadAgent
  dsimp only
  rw [hfetch]

theorem sendMessage_eq_error (st : A2AClientManager) (a text tid mid : String)
    (net : A2ARequest A2AMessage → Except String SendMessageResponse) (cA : A2AClient)
    (e : String) (h : alGet st.registeredAgents a = some cA)
    (hnet : net (sendReq st a text tid mid cA) = .error e) :
    A2AClientManager.sendMessage st a text tid mid net =
      (.exchanged (sendReq st a text tid mid cA) (.error e),
       { st with taskMap := alSet st.taskMap a (jsSetAdd (taskSetOf st a) tid) }) := by
  unfold sendReq at hnet ⊢
  unfold A2AClientManager.sendMessage
  rw [h]
  dsimp only
  rw [hnet]

theorem sendMessage_eq_ok_noctx (st : A2AClientManager) (a text tid mid : String)
    (net : A2ARequest A2AMessage → Except String SendMessageResponse) (cA : A2AClient)
    (resp : SendMessageResponse) (h : alGet st.registeredAgents a = some cA)
    (hnet : net (sendReq st a text tid mid cA) = .ok resp)
    (hctx : extractContextId resp = none) :
    A2AClientManager.sendMessage st a text tid mid net =
      (.exchanged (sendReq st a text tid mid cA) (.ok resp),
       { st with taskMap := alSet st.taskMap a (jsSetAdd (taskSetOf st a) tid) }) := by
  unfold sendReq at hnet ⊢
  unfold A2AClientManager.sendMessage
  rw [h]
  dsimp only
  rw [hnet]
  dsimp only
  rw [hctx]

theorem sendMessage_eq_ok_ctx (st : A2AClientManager) (a text tid mid : String)
    (net : A2ARequest A2AMessage → Except String SendMessageResponse) (cA : A2AClient)
    (resp : SendMessageResponse) (ctx : String) (h : alGet st.registeredAgents a = some cA)
    (hnet : net (sendReq st a text tid mid cA) = .ok resp)
    (hctx : extractContextId resp = some ctx) (hctx0 : ctx ≠ "") :
    A2AClientManager.sendMessage st a text tid mid net =
      (.exchanged (sendReq st a text tid mid cA) (.ok resp),
       { st with taskMap := alSet st.taskMap a (jsSetAdd (taskSetOf st a) tid)
                 contextMap := alSet st.contextMap a ctx }) := by
  unfold sendReq at hnet ⊢
  unfold A2AClientManager.sendMessage
  rw [h]
  dsimp only
  rw [hnet]
  dsimp only
  rw [hctx]
  dsimp only
  rw [if_neg hctx0]

/-! ## Ownership-isolation invariant -/

theorem taskSetOf_congr (st' st : A2AClientManager) (h : st'.taskMap = st.taskMap)
    (p : String) : taskSetOf st' p = taskSetOf st p := by
  unfold taskSetOf
  rw [h]

theorem taskSetOf_send (st : A2AClientManager) (a text tid mid : String)
    (net : A2ARequest A2AMessage → Except String SendMessageResponse) (c : A2AClient)
    (h : alGet st.registeredAgents a = some c) (p : String) :
    taskSetOf (A2AClientManager.sendMessage st a text tid mid net).2 p =
      if p = a then jsSetAdd (taskSetOf st a) tid else taskSetOf st p := by
  have htm := sendMessage_taskMap_of_registered st a text tid mid net c h
  unfold taskSetOf
  rw [htm]
  by_cases hp : p = a
  · subst hp
    rw [alGet_alSet_self, if_pos rfl]
    rfl
  · rw [alGet_alSet_ne _ _ _ _ hp, if_neg hp]

theorem taskSetOf_cancel_subset (st : A2AClientManager) (a taskId : String)
    (net : A2ARequest String → Except String TaskResponse) (p t : String)
    (h : t ∈ taskSetOf (A2AClientManager.cancelTask st a taskId net).2 p) :
    t ∈ taskSetOf st p := by
  rcases cancelTask_taskMap_cases st a taskId net with e | e
  · rw [taskSetOf_congr _ st e p] at h
    exact h
  · unfold taskSetOf at h
    rw [e] at h
    by_cases hpa : p = a
    · subst hpa
      rw [alGet_alSet_self] at h
      exact ((mem_jsSetDelete _ _ _).1 h).1
    · rw [alGet_alSet_ne _ _ _ _ hpa] at h
      exact h

theorem uniqueOwnership_step (st st' : A2AClientManager) (h : StepTo st st')
    (inv : uniqueOwnership st) : uniqueOwnership st' := by
  cases h with
  | load url path tok fetch =>
    intro p q t hp hq
    rw [taskSetOf_congr _ st (loadAgent_taskMap st url path tok fetch) p] at hp
    rw [taskSetOf_congr _ st (loadAgent_taskMap st url path tok fetch) q] at hq
    exact inv p q t hp hq
  | get a taskId net =>
    intro p q t hp hq
    rw [getTask_state st a taskId net] at hp hq
    exact inv p q t hp hq
  | cancel a taskId net =>
    intro p q t hp hq
    exact inv p q t (taskSetOf_cancel_subset st a taskId net p t hp)
      (taskSetOf_cancel_subset st a taskId net q t hq)
  | send a text taskId msgId net hfresh =>
    cases hc : alGet st.registeredAgents a with
    | none =>
      intro p q t hp hq
      rw [sendMessage_state_of_unregistered st a text taskId msgId net hc] at hp hq
      exact inv p q t hp hq
    | some c =>
      intro p q t hp hq
      rw [taskSetOf_send st a text taskId msgId net c hc p] at hp
      rw [taskSetOf_send st a text taskId msgId net c hc q] at hq
      by_cases hpa : p = a
      · by_cases hqa : q = a
        · rw [hpa, hqa]
        · rw [if_pos hpa] at hp
          rw [if_neg hqa] at hq
          rcases (mem_jsSetAdd _ _ _).1 hp with h1 | h2
          · rw [hpa]
            exact inv a q t h1 hq
          · subst h2
            exact absurd hq (hfresh q)
      · by_cases hqa : q = a
        · rw [if_neg hpa] at hp
          rw [if_pos hqa] at hq
          rcases (mem_jsSetAdd _ _ _).1 hq with h1 | h2
          · rw [hqa]
            exact inv p a t hp h1
          · subst h2
            exact absurd hp (hfresh p)
        · rw [if_neg hpa] at hp
          rw [if_neg hqa] at hq
          exact inv p q t hp hq

theorem uniqueOwnership_of_reachable (st : A2AClientManager) (h : Reachable st) :
    uniqueOwnership st := by
  unfold Reachable at h
  induction h with
  | refl =>
    intro p q t hp _
    exact absurd hp (List.not_mem_nil t)
  | tail _ hbc ih => exact uniqueOwnership_step _ _ hbc ih

/-- C1. Task ownership isolation: in every reachable state (task ids drawn
by `uuidv4()` being globally fresh), a task id is a member of at most one
peer's task set; and `getTask` or `cancelTask` addressed at a registered
peer `Q` with a task id `T` outside `Q`'s task set fails with the
task-not-found error — even when `T` is open under a different peer, since
only `Q`'s own set is consulted. -/
theorem claim_C1_task_ownership_isolation (st : A2AClientManager) (Q T : String)
    (c : A2AClient) (netg netc : A2ARequest String → Except String TaskResponse)
    (hreach : Reachable st)
    (hQ : alGet st.registeredAgents Q = some c) (hT : T ∉ taskSetOf st Q) :
    (∀ p q t, t ∈ taskSetOf st p → t ∈ taskSetOf st q → p = q) ∧
    A2AClientManager.getTask st Q T netg = (.taskNotFound, st) ∧
    A2AClientManager.cancelTask st Q T netc = (.taskNotFound, st) :=
  ⟨uniqueOwnership_of_reachable st hreach,
   getTask_taskNotFound st Q T netg c hQ hT,
   cancelTask_taskNotFound st Q T netc c hQ hT⟩

/-- Witness for C1: the reachable state after loading peer `"Alpha"`;
`getTask` for a task id never issued under `"Alpha"` fails. -/
theorem claim_C1_task_ownership_isolation_witness :
    A2AClientManager.getTask
      (A2AClientManager.loadAgent A2AClientManager.initial "uA" none none
        (fun _ => .ok ⟨"Alpha", "uA"⟩)).2 "Alpha" "T1" (fun _ => .error "n") =
      (.taskNotFound,
       (A2AClientManager.loadAgent A2AClientManager.initial "uA" none none
        (fun _ => .ok ⟨"Alpha", "uA"⟩)).2) :=
  (claim_C1_task_ownership_isolation _ "Alpha" "T1"
    ⟨"uA", AGENT_CARD_WELL_KNOWN_PATH, none⟩ (fun _ => .error "n") (fun _ => .error "n")
    (Relation.ReflTransGen.single
      (StepTo.load A2AClientManager.initial "uA" none none (fun _ => .ok ⟨"Alpha", "uA"⟩)))
    rfl (by decide)).2.1

/-- C2 counterexample: descriptors `"Helper Bot"` and `"HelperBot"` have the
same sanitized name, yet the second load succeeds with no
`AlreadyRegistered` failure, and the registry holds two distinct entries
keyed by the raw names — refuting sanitized-name keying and the claimed
rejection of whitespace-differing duplicates. -/
theorem claim_C2_counterexample :
    sanitizeName "Helper Bot" = sanitizeName "HelperBot" ∧
    (A2AClientManager.loadAgent A2AClientManager.initial "https://x" none none
      (fun _ => .ok ⟨"Helper Bot", "https://x"⟩)).1 = .loaded ⟨"Helper Bot", "https://x"⟩ ∧
    (A2AClientManager.loadAgent
      (A2AClientManager.loadAgent A2AClientManager.initial "https://x" none none
        (fun _ => .ok ⟨"Helper Bot", "https://x"⟩)).2 "https://y" none none
      (fun _ => .ok ⟨"HelperBot", "https://y"⟩)).1 = .loaded ⟨"HelperBot", "https://y"⟩ ∧
    alGet (A2AClientManager.loadAgent
      (A2AClientManager.loadAgent A2AClientManager.initial "https://x" none none
        (fun _ => .ok ⟨"Helper Bot", "https://x"⟩)).2 "https://y" none none
      (fun _ => .ok ⟨"HelperBot", "https://y"⟩)).2.registeredAgents "Helper Bot" =
      some (loadClient "https://x" none none) ∧
    alGet (A2AClientManager.loadAgent
      (A2AClientManager.loadAgent A2AClientManager.initial "https://x" none none
        (fun _ => .ok ⟨"Helper Bot", "https://x"⟩)).2 "https://y" none none
      (fun _ => .ok ⟨"HelperBot", "https://y"⟩)).2.registeredAgents "HelperBot" =
      some (loadClient "https://y" none none) := by
  exact ⟨by decide, rfl, rfl, rfl, rfl⟩

/-- C2 (amended). The connection is stored in the registry keyed by the
descriptor's raw name, and the handlers installed for the peer close over
that raw name; the sanitized name appears only in the generated operation
identifiers. A second load whose descriptor resolves to an
already-registered raw name (checked after the fetch completes) fails with
the already-loaded error without installing a second set of operations;
descriptors whose names differ only in whitespace get distinct registry
keys and are both accepted. -/
theorem claim_C2_raw_name_keying (bs : BridgeState) (url : String) (path : Option String)
    (card : AgentCard) (c0 : A2AClient) (fetch : A2AClient → Except String AgentCard)
    (hfetch : fetch (loadClient url path none) = .ok card) :
    (alGet bs.manager.registeredAgents card.name = none →
      (A2AToolFunctions.load_agent bs url path fetch).2.manager.registeredAgents =
        alSet bs.manager.registeredAgents card.name (loadClient url path none) ∧
      (A2AToolFunctions.load_agent bs url path fetch).2.tools.map (fun t => t.handler) =
        bs.tools.map (fun t => t.handler) ++
          [.send card.name, .get card.name, .cancel card.name] ∧
      (A2AToolFunctions.load_agent bs url path fetch).2.tools.map (fun t => t.name) =
        bs.tools.map (fun t => t.name) ++
          [sanitizeName card.name ++ "_sendMessage", sanitizeName card.name ++ "_getTask",
           sanitizeName card.name ++ "_cancelTask"]) ∧
    (alGet bs.manager.registeredAgents card.name = some c0 →
      A2AToolFunctions.load_agent bs url path fetch =
        (textResponse ("Failed to load agent: Error: Agent with name " ++ card.name ++
          " is already loaded."), ⟨bs.manager, bs.tools⟩)) := by
  constructor
  · intro hfresh
    unfold A2AToolFunctions.load_agent
    rw [loadAgent_eq_loaded bs.manager url path none fetch card hfetch hfresh]
    refine ⟨rfl, ?_, ?_⟩
    · show (registerToolsForAgent bs.tools card).map (fun t => t.handler) = _
      unfold registerToolsForAgent
      simp
    · show (registerToolsForAgent bs.tools card).map (fun t => t.name) = _
      unfold registerToolsForAgent
      simp
  · intro hdup
    unfold A2AToolFunctions.load_agent
    rw [loadAgent_eq_dup bs.manager url path none fetch card c0 hfetch hdup]

/-- Witness for C2 (amended): a fresh load of `"Helper Bot"` followed by an
identical duplicate load. -/
theorem claim_C2_raw_name_keying_witness :
    ((A2AToolFunctions.load_agent BridgeState.initial "https://x" none
        (fun _ => .ok ⟨"Helper Bot", "https://x"⟩)).2.manager.registeredAgents =
      alSet A2AClientManager.initial.registeredAgents "Helper Bot"
        (loadClient "https://x" none none)) ∧
    (A2AToolFunctions.load_agent
        (A2AToolFunctions.load_agent BridgeState.initial "https://x" none
          (fun _ => .ok ⟨"Helper Bot", "https://x"⟩)).2 "https://x" none
        (fun _ => .ok ⟨"Helper Bot", "https://x"⟩) =
      (textResponse
        "Failed to load agent: Error: Agent with name Helper Bot is already loaded.",
       ⟨(A2AToolFunctions.load_agent BridgeState.initial "https://x" none
          (fun _ => .ok ⟨"Helper Bot", "https://x"⟩)).2.manager,
        (A2AToolFunctions.load_agent BridgeState.initial "https://x" none
          (fun _ => .ok ⟨"Helper Bot", "https://x"⟩)).2.tools⟩)) := by
  constructor
  · exact (claim_C2_raw_name_keying BridgeState.initial "https://x" none
      ⟨"Helper Bot", "https://x"⟩ ⟨"x", "/p", none⟩
      (fun _ => .ok ⟨"Helper Bot", "https://x"⟩) rfl).1 rfl |>.1
  · have h := (claim_C2_raw_name_keying
      (A2AToolFunctions.load_agent BridgeState.initial "https://x" none
        (fun _ => .ok ⟨"Helper Bot", "https://x"⟩)).2 "https://x" none
      ⟨"Helper Bot", "https://x"⟩ (loadClient "https://x" none none)
      (fun _ => .ok ⟨"Helper Bot", "https://x"⟩) rfl).2 rfl
    rw [h]
    rfl

/-- C6 counterexample: loading a descriptor named `"Helper Bot"` installs
operations whose identifiers are joined with an underscore
(`HelperBot_sendMessage`), not a hyphen: `HelperBot-sendMessage` is not
among the installed names. -/
theorem claim_C6_counterexample :
    ((A2AToolFunctions.load_agent BridgeState.initial "https://x" none
       (fun _ => .ok ⟨"Helper Bot", "https://x"⟩)).2.tools.map (fun t => t.name) =
      ["HelperBot_sendMessage", "HelperBot_getTask", "HelperBot_cancelTask"]) ∧
    "HelperBot-sendMessage" ∉
      ((A2AToolFunctions.load_agent BridgeState.initial "https://x" none
       (fun _ => .ok ⟨"Helper Bot", "https://x"⟩)).2.tools.map (fun t => t.name)) := by
  decide

/-- C6 (amended). A successful `load_agent` against a descriptor named
`"Helper Bot"` installs exactly three operations, reachable as
`HelperBot_sendMessage`, `HelperBot_getTask` and `HelperBot_cancelTask`:
the identifiers are the display name with whitespace stripped, joined to
the operation suffix by an underscore; the confirmation text names the
three identifiers. -/
theorem claim_C6_generated_operation_names (bs : BridgeState) (url cardUrl : String)
    (path : Option String) (fetch : A2AClient → Except String AgentCard)
    (hfetch : fetch (loadClient url path none) = .ok ⟨"Helper Bot", cardUrl⟩)
    (hfresh : alGet bs.manager.registeredAgents "Helper Bot" = none) :
    (A2AToolFunctions.load_agent bs url path fetch).2.tools =
      bs.tools ++
        [{ name := "HelperBot_sendMessage"
           description := "Sends a message to the Helper Bot agent."
           handler := .send "Helper Bot" },
         { name := "HelperBot_getTask"
           description := "Retrieves a task from the Helper Bot agent."
           handler := .get "Helper Bot" },
         { name := "HelperBot_cancelTask"
           description := "Cancels a task on the Helper Bot agent."
           handler := .cancel "Helper Bot" }] ∧
    (A2AToolFunctions.load_agent bs url path fetch).1 =
      textResponse ("Successfully loaded agent: Helper Bot. New tools registered: " ++
        "HelperBot_sendMessage, HelperBot_getTask, HelperBot_cancelTask.") := by
  unfold A2AToolFunctions.load_agent
  rw [loadAgent_eq_loaded bs.manager url path none fetch ⟨"Helper Bot", cardUrl⟩
    hfetch hfresh]
  constructor
  · show registerToolsForAgent bs.tools ⟨"Helper Bot", cardUrl⟩ = _
    unfold registerToolsForAgent
    dsimp only
    rw [show sanitizeName "Helper Bot" = "HelperBot" from by decide]
    rw [List.append_cancel_left_eq]
    decide
  · show textResponse _ = _
    dsimp only
    rw [show sanitizeName "Helper Bot" = "HelperBot" from by decide]
    decide

/-- Witness for C6 (amended) at the initial bridge state. -/
theorem claim_C6_generated_operation_names_witness :
    (A2AToolFunctions.load_agent BridgeState.initial "https://x" none
       (fun _ => .ok ⟨"Helper Bot", "https://x"⟩)).2.tools =
      [{ name := "HelperBot_sendMessage"
         description := "Sends a message to the Helper Bot agent."
         handler := .send "Helper Bot" },
       { name := "HelperBot_getTask"
         description := "Retrieves a task from the Helper Bot agent."
         handler := .get "Helper Bot" },
       { name := "HelperBot_cancelTask"
         description := "Cancels a task on the Helper Bot agent."
         handler := .cancel "Helper Bot" }] :=
  (claim_C6_generated_operation_names BridgeState.initial "https://x" "https://x" none
    (fun _ => .ok ⟨"Helper Bot", "https://x"⟩) rfl rfl).1

/-- C5 counterexample: `list_agents` has no `try`/`catch`; with one peer
loaded and its descriptor re-fetch rejecting, the rejection propagates past
the operation's boundary to the host's dispatcher instead of becoming a
textual result. -/
theorem claim_C5_counterexample :
    A2AToolFunctions.list_agents
      (A2AToolFunctions.load_agent BridgeState.initial "https://x" none
        (fun _ => .ok ⟨"A", "https://x"⟩)).2
      (fun _ => .error "network down") = .error "network down" := rfl

/-- C5 (amended). `load_agent` and the three per-peer handlers convert
every internal failure — unknown peer, task not found, descriptor-fetch
failure, remote protocol error, thrown network exception — into a textual
result at the operation boundary; `list_agents` returns a textual result
whenever the manager's listing resolves (including the empty listing), but
a descriptor re-fetch failure during listing propagates uncaught. -/
theorem claim_C5_textual_boundary (bs : BridgeState) (st : A2AClientManager)
    (a url text tid mid taskId e m : String) (path : Option String)
    (fetch : A2AClient → Except String AgentCard)
    (net : A2ARequest A2AMessage → Except String SendMessageResponse)
    (nett : A2ARequest String → Except String TaskResponse)
    (cA : A2AClient) :
    (fetch (loadClient url path none) = .error e →
      (A2AToolFunctions.load_agent bs url path fetch).1 =
        textResponse ("Failed to load agent: " ++ e)) ∧
    (alGet st.registeredAgents a = none →
      (agentSendMessage a st text tid mid net).1 =
        textResponse ("Failed to send message to " ++ a ++ ": " ++ notRegisteredMsg a) ∧
      (agentGetTask a st taskId nett).1 =
        textResponse ("Failed to get task from agent " ++ a ++ ": " ++ notRegisteredMsg a) ∧
      (agentCancelTask a st taskId nett).1 =
        textResponse ("Failed to Cancel Task on Agent " ++ a ++ ": " ++
          notRegisteredMsg a)) ∧
    (alGet st.registeredAgents a = some cA → (∀ r, net r = .error e) →
      (agentSendMessage a st text tid mid net).1 =
        textResponse ("Failed to send message to " ++ a ++ ": " ++ e)) ∧
    (alGet st.registeredAgents a = some cA →
      (∀ r, net r = .ok (.protocolError m)) →
      (agentSendMessage a st text tid mid net).1 =
        textResponse ("Error from agent " ++ a ++ ": " ++ m)) ∧
    (alGet st.registeredAgents a = some cA → taskId ∉ taskSetOf st a →
      (agentGetTask a st taskId nett).1 =
        textResponse ("Failed to get task from agent " ++ a ++ ": " ++
          taskNotFoundMsg a taskId) ∧
      (agentCancelTask a st taskId nett).1 =
        textResponse ("Failed to Cancel Task on Agent " ++ a ++ ": " ++
          taskNotFoundMsg a taskId)) ∧
    (alGet st.registeredAgents a = some cA → taskId ∈ taskSetOf st a →
      ((∀ r, nett r = .error e) →
        (agentGetTask a st taskId nett).1 =
          textResponse ("Failed to get task from agent " ++ a ++ ": " ++ e) ∧
        (agentCancelTask a st taskId nett).1 =
          textResponse ("Failed to Cancel Task on Agent " ++ a ++ ": " ++ e)) ∧
      ((∀ r, nett r = .ok (.protocolError m)) →
        (agentGetTask a st taskId nett).1 =
          textResponse ("Error from agent " ++ a ++ " when getting task " ++ m) ∧
        (agentCancelTask a st taskId nett).1 =
          textResponse ("Error from agent " ++ a ++ " when canceling task: " ++ m))) ∧
    (∀ cards, A2AClientManager.listAgents bs.manager fetch = .ok cards →
      ∃ r, A2AToolFunctions.list_agents bs fetch = .ok r) := by
  refine ⟨?_, ?_, ?_, ?_, ?_, ?_, ?_⟩
  · intro hf
    unfold A2AToolFunctions.load_agent
    rw [loadAgent_eq_fetchFailed bs.manager url path none fetch e hf]
  · intro hnone
    unfold agentSendMessage agentGetTask agentCancelTask
    rw [sendMessage_state_of_unregistered st a text tid mid net hnone,
      getTask_notRegistered st a taskId nett hnone,
      cancelTask_notRegistered st a taskId nett hnone]
    exact ⟨rfl, rfl, rfl⟩
  · intro hreg hthrow
    unfold agentSendMessage
    rw [sendMessage_eq_error st a text tid mid net cA e hreg (hthrow _)]
  · intro hreg hproto
    unfold agentSendMessage
    rw [sendMessage_eq_ok_noctx st a text tid mid net cA (.protocolError m) hreg
      (hproto _) rfl]
  · intro hreg hnotin
    unfold agentGetTask agentCancelTask
    rw [getTask_taskNotFound st a taskId nett cA hreg hnotin,
      cancelTask_taskNotFound st a taskId nett cA hreg hnotin]
    exact ⟨rfl, rfl⟩
  · intro hreg hin
    constructor
    · intro hthrow
      unfold agentGetTask agentCancelTask
      rw [getTask_success st a taskId nett cA hreg hin,
        cancelTask_success st a taskId nett cA hreg hin, hthrow]
      exact ⟨rfl, rfl⟩
    · intro hproto
      unfold agentGetTask agentCancelTask
      rw [getTask_success st a taskId nett cA hreg hin,
        cancelTask_success st a taskId nett cA hreg hin, hproto]
      exact ⟨rfl, rfl⟩
  · intro cards hok
    unfold A2AToolFunctions.list_agents
    rw [hok]
    dsimp only
    by_cases hc : cards.isEmpty
    · exact ⟨_, by rw [if_pos hc]⟩
    · exact ⟨_, by rw [if_neg hc]⟩

/-- Witness for C5 (amended): the unregistered-peer conversion at the
initial state, and the empty listing. -/
theorem claim_C5_textual_boundary_witness :
    (agentSendMessage "A" A2AClientManager.initial "hi" "T1" "M1"
      (fun _ => .error "down")).1 =
      textResponse ("Failed to send message to " ++ "A" ++ ": " ++ notRegisteredMsg "A") ∧
    (∃ r, A2AToolFunctions.list_agents BridgeState.initial
      (fun _ => .error "down") = .ok r) :=
  ⟨((claim_C5_textual_boundary BridgeState.initial A2AClientManager.initial "A" "u" "hi"
      "T1" "M1" "T1" "down" "m" none (fun _ => .error "down") (fun _ => .error "down")
      (fun _ => .error "down") ⟨"u", "/p", none⟩).2.1 rfl).1,
   (claim_C5_textual_boundary BridgeState.initial A2AClientManager.initial "A" "u" "hi"
      "T1" "M1" "T1" "down" "m" none (fun _ => .error "down") (fun _ => .error "down")
      (fun _ => .error "down") ⟨"u", "/p", none⟩).2.2.2.2.2.2 [] rfl⟩

/-! ## Listing -/

theorem alGet_append_of_none {α : Type} (l1 l2 : List (String × α)) (k : String)
    (h : alGet l1 k = none) : alGet (l1 ++ l2) k = alGet l2 k := by
  induction l1 with
  | nil => rfl
  | cons hd tl ih =>
    rcases hd with ⟨k0, v0⟩
    by_cases h0 : k0 = k
    · rw [alGet, if_pos h0] at h
      exact absurd h (by simp)
    · rw [alGet, if_neg h0] at h
      rw [List.cons_append, alGet, if_neg h0]
      exact ih h

theorem alSet_of_none {α : Type} (l : List (String × α)) (k : String) (v : α)
    (h : alGet l k = none) : alSet l k v = l ++ [(k, v)] := by
  induction l with
  | nil => rfl
  | cons hd tl ih =>
    rcases hd with ⟨k0, v0⟩
    by_cases h0 : k0 = k
    · rw [alGet, if_pos h0] at h
      exact absurd h (by simp)
    · rw [alGet, if_neg h0] at h
      rw [alSet, if_neg h0, List.cons_append, ih h]

theorem forall2_map_of_mem {α β γ : Type} (l : List α) (f : α → β) (k : α → γ)
    (R : β → γ → Prop) (h : ∀ p ∈ l, R (f p) (k p)) :
    List.Forall₂ R (l.map f) (l.map k) := by
  induction l with
  | nil => exact List.Forall₂.nil
  | cons hd tl ih =>
    exact List.Forall₂.cons (h hd (List.mem_cons_self _ _))
      (ih (fun p hp => h p (List.mem_cons_of_mem _ hp)))

theorem mapM_ok_of_forall2 {α β : Type} (f : α → Except String β) (l : List α)
    (out : List β) (h : List.Forall₂ (fun x y => f x = .ok y) l out) :
    l.mapM f = .ok out := by
  induction h with
  | nil => rfl
  | cons h1 _ ih =>
    rw [List.mapM_cons, h1, ih]
    rfl

theorem load_agent_ok_state (bs : BridgeState) (url : String) (card : AgentCard)
    (hfr : alGet bs.manager.registeredAgents card.name = none) :
    (A2AToolFunctions.load_agent bs url none (fun _ => .ok card)).2 =
      ⟨{ bs.manager with registeredAgents :=
                           alSet bs.manager.registeredAgents card.name
                             (loadClient url none none) },
       registerToolsForAgent bs.tools card⟩ := by
  unfold A2AToolFunctions.load_agent
  rw [loadAgent_eq_loaded bs.manager url none none (fun _ => .ok card) card rfl hfr]

theorem load_agent_seq_registeredAgents (loads : List (String × AgentCard))
    (bs : BridgeState)
    (hfresh : ∀ p ∈ loads, alGet bs.manager.registeredAgents p.2.name = none)
    (hnodup : loads.Pairwise (fun p q => p.2.name ≠ q.2.name)) :
    (load_agent_seq bs loads).manager.registeredAgents =
      bs.manager.registeredAgents ++
        loads.map (fun p => (p.2.name, loadClient p.1 none none)) := by
  induction loads generalizing bs with
  | nil => simp [load_agent_seq]
  | cons hd tl ih =>
    rcases hd with ⟨url, card⟩
    have hfr : alGet bs.manager.registeredAgents card.name = none :=
      hfresh _ (List.mem_cons_self _ _)
    have hhd := List.pairwise_cons.1 hnodup
    unfold load_agent_seq
    rw [load_agent_ok_state bs url card hfr]
    rw [ih _ ?_ hhd.2]
    · show alSet bs.manager.registeredAgents card.name (loadClient url none none) ++ _ = _
      rw [alSet_of_none _ _ _ hfr, List.map_cons, List.append_assoc]
      rfl
    · intro p hp
      show alGet (alSet bs.manager.registeredAgents card.name (loadClient url none none))
        p.2.name = none
      have hne : p.2.name ≠ card.name := fun hh => (hhd.1 p hp) hh.symm
      rw [alGet_alSet_ne _ _ _ _ hne]
      exact hfresh p (List.mem_cons_of_mem _ hp)

/-- C7. Listing order and completeness: after any sequence of successful
`load_agent` calls with distinct names, the listing re-queries every stored
connection for its descriptor (the oracle `g` is consulted once per stored
client, in insertion order) and returns exactly one entry per loaded peer,
in load order; with no peer loaded, `list_agents` returns the
no-agents-loaded message. -/
theorem claim_C7_listing_order (loads : List (String × AgentCard))
    (g : A2AClient → Except String AgentCard)
    (hnodup : loads.Pairwise (fun p q => p.2.name ≠ q.2.name))
    (hg : ∀ p ∈ loads, g (loadClient p.1 none none) = .ok p.2) :
    A2AClientManager.listAgents (load_agent_seq BridgeState.initial loads).manager g =
      .ok (loads.map (fun p => p.2)) ∧
    (loads = [] →
      A2AToolFunctions.list_agents (load_agent_seq BridgeState.initial loads) g =
        .ok (textResponse "No agents are currently loaded.")) ∧
    (loads ≠ [] →
      A2AToolFunctions.list_agents (load_agent_seq BridgeState.initial loads) g =
        .ok (textResponse (String.intercalate "\n"
          (loads.map (fun p => "- " ++ p.2.name ++ " (" ++ p.2.url ++ ")"))))) := by
  have hreg := load_agent_seq_registeredAgents loads BridgeState.initial
    (fun p _ => rfl) hnodup
  have hlist : A2AClientManager.listAgents
      (load_agent_seq BridgeState.initial loads).manager g =
      .ok (loads.map (fun p => p.2)) := by
    unfold A2AClientManager.listAgents
    rw [hreg]
    rw [show BridgeState.initial.manager.registeredAgents = ([] : List (String × A2AClient))
      from rfl]
    rw [List.nil_append, List.map_map]
    show (loads.map (fun p => loadClient p.1 none none)).mapM g = _
    exact mapM_ok_of_forall2 g _ _
      (forall2_map_of_mem loads _ _ _ (fun p hp => hg p hp))
  refine ⟨hlist, ?_, ?_⟩
  · intro hnil
    subst hnil
    rfl
  · intro hne
    unfold A2AToolFunctions.list_agents
    rw [hlist]
    dsimp only
    rw [if_neg (by
      simp only [List.isEmpty_iff, List.map_eq_nil_iff]
      exact hne)]
    rw [List.map_map]
    rfl

/-- Witness for C7: two loads with distinct names, listed in load order. -/
theorem claim_C7_listing_order_witness :
    A2AClientManager.listAgents
      (load_agent_seq BridgeState.initial
        [("u1", ⟨"A", "u1"⟩), ("u2", ⟨"B", "u2"⟩)]).manager
      (fun cl => if cl.url = "u1" then .ok ⟨"A", "u1"⟩ else .ok ⟨"B", "u2"⟩) =
      .ok [⟨"A", "u1"⟩, ⟨"B", "u2"⟩] ∧
    A2AToolFunctions.list_agents
      (load_agent_seq BridgeState.initial
        [("u1", ⟨"A", "u1"⟩), ("u2", ⟨"B", "u2"⟩)])
      (fun cl => if cl.url = "u1" then .ok ⟨"A", "u1"⟩ else .ok ⟨"B", "u2"⟩) =
      .ok (textResponse (String.intercalate "\n" ["- A (u1)", "- B (u2)"])) := by
  have h := claim_C7_listing_order [("u1", ⟨"A", "u1"⟩), ("u2", ⟨"B", "u2"⟩)]
    (fun cl => if cl.url = "u1" then .ok ⟨"A", "u1"⟩ else .ok ⟨"B", "u2"⟩)
    (by decide)
    (by
      intro p hp
      rcases List.mem_cons.1 hp with rfl | hp2
      · rfl
      · rcases List.mem_cons.1 hp2 with rfl | hp3
        · rfl
        · cases hp3)
  exact ⟨h.1, by rw [h.2.2 (by decide)]; exact congrArg Except.ok (by decide)⟩

/-- C8. Bearer credential propagation: invoking `load_agent` with a
(non-empty) token builds the client with a `StaticBearerTokenAuth` whose
headers are exactly `Authorization: Bearer <token>`; the descriptor fetch
is performed with that client, the stored connection is that same client,
and every subsequent downstream call for the peer — message send, task
get, task cancel — is a request carrying the stored client's headers. -/
theorem claim_C8_bearer_propagation (bs : BridgeState) (url : String)
    (path : Option String) (t : String) (card : AgentCard)
    (fetch : A2AClient → Except String AgentCard) (ht : t ≠ "")
    (hfetch : fetch (loadClient url path (some t)) = .ok card)
    (hfresh : alGet bs.manager.registeredAgents card.name = none) :
    (loadClient url path (some t)).requestHeaders =
      [("Authorization", "Bearer " ++ t)] ∧
    alGet (A2AToolFunctionsV2.load_agent bs url path (some t)
        fetch).2.manager.registeredAgents card.name =
      some (loadClient url path (some t)) ∧
    (∀ st a cl text tid mid net, alGet st.registeredAgents a = some cl →
      ((A2AClientManager.sendMessage st a text tid mid net).1).request?.map
        (fun r => r.headers) = some cl.requestHeaders) ∧
    (∀ st a cl tid net, alGet st.registeredAgents a = some cl →
        tid ∈ taskSetOf st a →
      ((A2AClientManager.getTask st a tid net).1).request?.map (fun r => r.headers) =
        some cl.requestHeaders ∧
      ((A2AClientManager.cancelTask st a tid net).1).request?.map (fun r => r.headers) =
        some cl.requestHeaders) := by
  refine ⟨?_, ?_, ?_, ?_⟩
  · unfold loadClient A2AClient.requestHeaders StaticBearerTokenAuth.headers
    dsimp only
    rw [if_neg ht]
  · unfold A2AToolFunctionsV2.load_agent
    rw [loadAgent_eq_loaded bs.manager url path (some t) fetch card hfetch hfresh]
    dsimp only
    rw [alGet_alSet_self]
  · intro st a cl text tid mid net hreg
    rw [sendMessage_fst_of_registered st a text tid mid net cl hreg]
    rfl
  · intro st a cl tid net hreg hmem
    constructor
    · rw [getTask_success st a tid net cl hreg hmem]
      rfl
    · rw [cancelTask_success st a tid net cl hreg hmem]
      rfl

/-- Witness for C8: load with token `"tok"`, then the send request carries
the bearer header. -/
theorem claim_C8_bearer_propagation_witness :
    (loadClient "u" none (some "tok")).requestHeaders =
      [("Authorization", "Bearer " ++ "tok")] ∧
    alGet (A2AToolFunctionsV2.load_agent BridgeState.initial "u" none (some "tok")
        (fun _ => .ok ⟨"A", "u"⟩)).2.manager.registeredAgents "A" =
      some (loadClient "u" none (some "tok")) :=
  ⟨(claim_C8_bearer_propagation BridgeState.initial "u" none "tok" ⟨"A", "u"⟩
      (fun _ => .ok ⟨"A", "u"⟩) (by decide) rfl rfl).1,
   (claim_C8_bearer_propagation BridgeState.initial "u" none "tok" ⟨"A", "u"⟩
      (fun _ => .ok ⟨"A", "u"⟩) (by decide) rfl rfl).2.1⟩

/-- C3. `sendMessage` task-id generation and context continuity: the fresh
task id is added to the peer's task set; the outbound message carries the
peer's stored conversational context exactly when one exists (stored
tokens are never empty in reachable states); a successful response
yielding a new token overwrites the stored context for that peer only;
consequently, of two sequential sends to peer `A` with an intervening send
to a different peer `B`, the intervening outbound message carries no token
from `A`'s conversation and the second send to `A` carries the token
returned by the first response. -/
theorem claim_C3_context_continuity (st : A2AClientManager) (A B : String)
    (cA cB : A2AClient)
    (text1 text2 text3 tid1 tid2 tid3 mid1 mid2 mid3 c : String)
    (resp1 : SendMessageResponse)
    (net1 net2 net3 : A2ARequest A2AMessage → Except String SendMessageResponse)
    (hA : alGet st.registeredAgents A = some cA)
    (hB : alGet st.registeredAgents B = some cB)
    (hBA : B ≠ A)
    (hctxA : ∀ s, alGet st.contextMap A = some s → s ≠ "")
    (hctxB : alGet st.contextMap B = none)
    (hnet1 : ∀ r, net1 r = .ok resp1)
    (hctx : extractContextId resp1 = some c) (hc0 : c ≠ "") :
    tid1 ∈ taskSetOf (A2AClientManager.sendMessage st A text1 tid1 mid1 net1).2 A ∧
    ((A2AClientManager.sendMessage st A text1 tid1 mid1 net1).1).request?.map
      (fun r => r.body.contextId) = some (alGet st.contextMap A) ∧
    alGet (A2AClientManager.sendMessage st A text1 tid1 mid1 net1).2.contextMap A =
      some c ∧
    (∀ Q, Q ≠ A →
      alGet (A2AClientManager.sendMessage st A text1 tid1 mid1 net1).2.contextMap Q =
        alGet st.contextMap Q) ∧
    ((A2AClientManager.sendMessage
        (A2AClientManager.sendMessage st A text1 tid1 mid1 net1).2
        B text2 tid2 mid2 net2).1).request?.map (fun r => r.body.contextId) =
      some none ∧
    ((A2AClientManager.sendMessage
        (A2AClientManager.sendMessage
          (A2AClientManager.sendMessage st A text1 tid1 mid1 net1).2
          B text2 tid2 mid2 net2).2
        A text3 tid3 mid3 net3).1).request?.map (fun r => r.body.contextId) =
      some (some c) := by
  have e1 := sendMessage_eq_ok_ctx st A text1 tid1 mid1 net1 cA resp1 c hA (hnet1 _)
    hctx hc0
  have hmem : tid1 ∈ taskSetOf (A2AClientManager.sendMessage st A text1 tid1 mid1
      net1).2 A := by
    rw [e1]
    unfold taskSetOf
    dsimp only
    rw [alGet_alSet_self]
    show tid1 ∈ jsSetAdd ((alGet st.taskMap A).getD []) tid1
    rw [mem_jsSetAdd]
    exact Or.inr rfl
  have hreq1 : ((A2AClientManager.sendMessage st A text1 tid1 mid1 net1).1).request?.map
      (fun r => r.body.contextId) = some (alGet st.contextMap A) := by
    rw [e1]
    show some (if truthy (alGet st.contextMap A) then alGet st.contextMap A else none) =
      some (alGet st.contextMap A)
    cases hst : alGet st.contextMap A with
    | none => rfl
    | some s =>
      have hs : s ≠ "" := hctxA s hst
      simp [truthy, hs]
  have hctxA1 : alGet (A2AClientManager.sendMessage st A text1 tid1 mid1
      net1).2.contextMap A = some c := by
    rw [e1]
    dsimp only
    rw [alGet_alSet_self]
  have hframe1 : ∀ Q, Q ≠ A →
      alGet (A2AClientManager.sendMessage st A text1 tid1 mid1 net1).2.contextMap Q =
        alGet st.contextMap Q := by
    intro Q hQ
    rw [e1]
    dsimp only
    rw [alGet_alSet_ne _ _ _ _ hQ]
  have hregB1 : alGet (A2AClientManager.sendMessage st A text1 tid1 mid1
      net1).2.registeredAgents B = some cB := by
    rw [sendMessage_registeredAgents]
    exact hB
  have hctxB1 : alGet (A2AClientManager.sendMessage st A text1 tid1 mid1
      net1).2.contextMap B = none := by
    rw [hframe1 B hBA]
    exact hctxB
  have hreq2 : ((A2AClientManager.sendMessage
      (A2AClientManager.sendMessage st A text1 tid1 mid1 net1).2
      B text2 tid2 mid2 net2).1).request?.map (fun r => r.body.contextId) = some none := by
    rw [sendMessage_fst_of_registered _ B text2 tid2 mid2 net2 cB hregB1]
    show some (if truthy (alGet _ B) then _ else none) = some none
    rw [hctxB1]
    rfl
  have hregA2 : alGet (A2AClientManager.sendMessage
      (A2AClientManager.sendMessage st A text1 tid1 mid1 net1).2
      B text2 tid2 mid2 net2).2.registeredAgents A = some cA := by
    rw [sendMessage_registeredAgents, sendMessage_registeredAgents]
    exact hA
  have hctxA2 : alGet (A2AClientManager.sendMessage
      (A2AClientManager.sendMessage st A text1 tid1 mid1 net1).2
      B text2 tid2 mid2 net2).2.contextMap A = some c := by
    rcases sendMessage_contextMap_cases
      (A2AClientManager.sendMessage st A text1 tid1 mid1 net1).2 B text2 tid2 mid2 net2
      with h | ⟨c2, _, h⟩
    · rw [h]
      exact hctxA1
    · rw [h, alGet_alSet_ne _ _ _ _ (Ne.symm hBA)]
      exact hctxA1
  have hreq3 : ((A2AClientManager.sendMessage
      (A2AClientManager.sendMessage
        (A2AClientManager.sendMessage st A text1 tid1 mid1 net1).2
        B text2 tid2 mid2 net2).2
      A text3 tid3 mid3 net3).1).request?.map (fun r => r.body.contextId) =
      some (some c) := by
    rw [sendMessage_fst_of_registered _ A text3 tid3 mid3 net3 cA hregA2]
    show some (if truthy (alGet _ A) then alGet _ A else none) = some (some c)
    rw [hctxA2]
    simp [truthy, hc0]
  exact ⟨hmem, hreq1, hctxA1, hframe1, hreq2, hreq3⟩

/-- Witness for C3: peers `"A"` and `"B"`, the first response carrying the
token `"c1"`. -/
theorem claim_C3_context_continuity_witness :
    "T1" ∈ taskSetOf (A2AClientManager.sendMessage
      ⟨[("A", ⟨"u", "/p", none⟩), ("B", ⟨"v", "/p", none⟩)], [], []⟩
      "A" "m1" "T1" "M1" (fun _ => .ok (.message ⟨[], some "c1"⟩))).2 "A" ∧
    ((A2AClientManager.sendMessage
        (A2AClientManager.sendMessage
          ⟨[("A", ⟨"u", "/p", none⟩), ("B", ⟨"v", "/p", none⟩)], [], []⟩
          "A" "m1" "T1" "M1" (fun _ => .ok (.message ⟨[], some "c1"⟩))).2
        "B" "m2" "T2" "M2" (fun _ => .error "x")).1).request?.map
      (fun r => r.body.contextId) = some none ∧
    ((A2AClientManager.sendMessage
        (A2AClientManager.sendMessage
          (A2AClientManager.sendMessage
            ⟨[("A", ⟨"u", "/p", none⟩), ("B", ⟨"v", "/p", none⟩)], [], []⟩
            "A" "m1" "T1" "M1" (fun _ => .ok (.message ⟨[], some "c1"⟩))).2
          "B" "m2" "T2" "M2" (fun _ => .error "x")).2
        "A" "m3" "T3" "M3" (fun _ => .error "x")).1).request?.map
      (fun r => r.body.contextId) = some (some "c1") := by
  have h := claim_C3_context_continuity
    ⟨[("A", ⟨"u", "/p", none⟩), ("B", ⟨"v", "/p", none⟩)], [], []⟩ "A" "B"
    ⟨"u", "/p", none⟩ ⟨"v", "/p", none⟩ "m1" "m2" "m3" "T1" "T2" "T3" "M1" "M2" "M3"
    "c1" (.message ⟨[], some "c1"⟩) (fun _ => .ok (.message ⟨[], some "c1"⟩))
    (fun _ => .error "x") (fun _ => .error "x") rfl rfl (by decide)
    (fun s hs => Option.noConfusion hs) rfl (fun _ => rfl) rfl (by decide)
  exact ⟨h.1, h.2.2.2.2.1, h.2.2.2.2.2⟩

/-- Witness for C10 at a concrete two-peer state. -/
theorem claim_C10_per_peer_frame_witness :
    taskSetOf (A2AClientManager.sendMessage
      ⟨[("A", ⟨"u", "/p", none⟩), ("B", ⟨"v", "/p", none⟩)], [("B", ["T2"])], [("B", "c2")]⟩
      "A" "hi" "T1" "M1" (fun _ => .error "down")).2 "B" = ["T2"] ∧
    alGet (A2AClientManager.sendMessage
      ⟨[("A", ⟨"u", "/p", none⟩), ("B", ⟨"v", "/p", none⟩)], [("B", ["T2"])], [("B", "c2")]⟩
      "A" "hi" "T1" "M1" (fun _ => .error "down")).2.contextMap "B" = some "c2" := by
  have h := claim_C10_per_peer_frame
    ⟨[("A", ⟨"u", "/p", none⟩), ("B", ⟨"v", "/p", none⟩)], [("B", ["T2"])], [("B", "c2")]⟩
    "A" "B" "hi" "T1" "M1" "T9" (fun _ => .error "down") (fun _ => .error "down")
    (fun _ => .error "down") (by decide)
  exact ⟨by rw [h.1.2.1]; decide, by rw [h.1.2.2]; decide⟩

end A2A

